import Mathlib

/-!
Shallow embedding of the kormir DLC oracle (crates kormir, kormir-wasm, kormir-server)
and proofs about its specification claims.

Conventions of the embedding:
* Machine integers are `Nat` with explicit `% 2 ^ 32` where u32 overflow matters.
* A Rust panic (a failing `unwrap` / `expect`) is modelled as `none`; a Rust
  `Result<T, Error>` is modelled as `Except Error T`.
* secp256k1 points that are multiples of the generator are represented by their
  discrete logarithm in `ZMod n` (`n` the group order; secp256k1 has prime order, so
  this covers every point).  The facts about x-only serialization, Y-parity and
  x-only lifting that the external secp256k1 library guarantees are collected in the
  `SchnorrCurve` structure; theorems quantify over every model of those facts, and a
  small executable model (`toyCurve`) witnesses them.
* External hash and key-derivation primitives (SHA-256, BIP-32 CKDpriv, the
  deterministic BIP-340 signer of the secp256k1 library) are parameters of the
  definitions that call them: the repository's code treats them as black boxes.
-/

set_option maxHeartbeats 1000000

namespace Kormir

/-- The kormir error type, from src/kormir/src/error.rs. -/
inductive Error where
  | EventAlreadySigned
  | NotFound
  | StorageFailure
  | InvalidOutcome
  | Internal
  deriving DecidableEq

/-- Big-endian encoding of a natural number into a fixed number of bytes
(the serialization of 32-byte scalars and hashes). -/
def natToBytesBE : Nat → Nat → List Nat
  | 0, _ => []
  | len + 1, x => natToBytesBE len (x / 256) ++ [x % 256]

/-- Big-endian interpretation of a byte string as a natural number. -/
def bytesToNatBE (bs : List Nat) : Nat :=
  bs.foldl (fun a b => a * 256 + b) 0

/-- UTF-8 bytes of a string, modelled as the character code points
(exact for the ASCII strings considered here). -/
def strBytes (s : String) : List Nat := s.data.map Char.toNat

/-- The index list returned by one `get_next_nonce_indexes(num)` call when the
atomic u32 counter holds `counter`.  `MemoryStorage` (src/kormir/src/storage.rs
lines 68-76), `IndexedDb` (src/kormir-wasm/src/storage.rs lines 162-172) and
`PostgresStorage` (src/kormir-server/src/models/mod.rs lines 125-133) all compute
it identically: `fetch_add(num as u32)` returns the old counter and the loop pushes
`num` successive u32 values starting there, wrapping at `2 ^ 32`. -/
def nonceIndexesOf (num counter : Nat) : List Nat :=
  (List.range num).map (fun i => (counter + i) % 2 ^ 32)

/-- The atomic counter value after `fetch_add(num as u32)`: the addend is the u32
truncation of `num` and the addition wraps. -/
def nonceCounterAfter (num counter : Nat) : Nat :=
  (counter + num % 2 ^ 32) % 2 ^ 32

/-- A sequence of `get_next_nonce_indexes` calls against the same store, started at
counter value `c`: the list of index lists returned, and the final counter. -/
def runNonceCalls : List Nat → Nat → List (List Nat) × Nat
  | [], c => ([], c)
  | num :: rest, c =>
    let out := runNonceCalls rest (nonceCounterAfter num c)
    (nonceIndexesOf num c :: out.1, out.2)

/-- `EnumEventDescriptor` of the dlc-messages data model (re-exported by kormir). -/
structure EnumEventDescriptor where
  outcomes : List String
  deriving DecidableEq

/-- `EventDescriptor`; the digit-decomposition payload is elided (no claim under
verification inspects it). -/
inductive EventDescriptor where
  | EnumEvent (d : EnumEventDescriptor)
  | DigitDecompositionEvent
  deriving DecidableEq

/-- Whether a descriptor is the enum variant. -/
def EventDescriptor.isEnumEvent : EventDescriptor → Bool
  | EnumEvent _ => true
  | DigitDecompositionEvent => false

/-- `OracleEvent`; an `XOnlyPublicKey` is represented by its 32 serialized bytes. -/
structure OracleEvent where
  oracle_nonces : List (List Nat)
  event_id : String
  event_maturity_epoch : Nat
  event_descriptor : EventDescriptor
  deriving DecidableEq

/-- `OracleAnnouncement`; the announcement signature is kept as opaque bytes. -/
structure OracleAnnouncement where
  announcement_signature : List Nat
  oracle_public_key : List Nat
  oracle_event : OracleEvent
  deriving DecidableEq

/-- `OracleAttestation`; a Schnorr signature is its 64 serialized bytes. -/
structure OracleAttestation where
  oracle_public_key : List Nat
  signatures : List (List Nat)
  outcomes : List String
  deriving DecidableEq

/-- `OracleEventData` from src/kormir/src/storage.rs (with the nostr feature fields). -/
structure OracleEventData where
  id : Option Nat
  announcement : OracleAnnouncement
  indexes : List Nat
  signatures : List (String × List Nat)
  announcement_event_id : Option String
  attestation_event_id : Option String
  deriving DecidableEq

/-- Insertion into an association-list model of `HashMap` / IndexedDB `put`:
the new binding replaces any existing binding of the same key. -/
def mapInsert {α β : Type} [DecidableEq α] (db : List (α × β)) (k : α) (v : β) :
    List (α × β) :=
  (k, v) :: db.filter (fun p => decide (p.1 ≠ k))

/-- Lookup in the association-list map model. -/
def mapGet {α β : Type} [DecidableEq α] (db : List (α × β)) (k : α) : Option β :=
  (db.find? (fun p => decide (p.1 = k))).map (fun p => p.2)

/-- `MemoryStorage` (src/kormir/src/storage.rs): an atomic u32 nonce counter and a
`HashMap<u32, OracleEventData>`. -/
structure MemoryStorage where
  current_index : Nat
  data : List (Nat × OracleEventData)
  deriving DecidableEq

/-- `MemoryStorage::get_next_nonce_indexes` (storage.rs lines 68-76). -/
def MemoryStorage.get_next_nonce_indexes (num : Nat) (st : MemoryStorage) :
    List Nat × MemoryStorage :=
  (nonceIndexesOf num st.current_index,
    { st with current_index := nonceCounterAfter num st.current_index })

/-- `MemoryStorage::save_announcement` (storage.rs lines 78-100).  The id is drawn
by `rand::random::<u32>()`; the draw is modelled as the explicit input `rid`.
`HashMap::insert` silently replaces any event already stored under `rid`. -/
def MemoryStorage.save_announcement (rid : Nat) (ann : OracleAnnouncement)
    (indexes : List Nat) (st : MemoryStorage) : Nat × MemoryStorage :=
  let event : OracleEventData :=
    { id := some rid, announcement := ann, indexes := indexes, signatures := [],
      announcement_event_id := none, attestation_event_id := none }
  (rid, { st with data := mapInsert st.data rid event })

/-- `MemoryStorage::get_event` (storage.rs lines 122-125). -/
def MemoryStorage.get_event (id : Nat) (st : MemoryStorage) : Option OracleEventData :=
  mapGet st.data id

/-- `MemoryStorage::save_signatures` (storage.rs lines 102-120): `NotFound` for an
unknown id, `EventAlreadySigned` if signatures are already stored, otherwise the
signatures are written (there is no check of the number of signatures).  The store
state is returned unchanged on every error path. -/
def MemoryStorage.save_signatures (id : Nat) (sigs : List (String × List Nat))
    (st : MemoryStorage) : Except Error OracleEventData × MemoryStorage :=
  match mapGet st.data id with
  | none => (Except.error Error.NotFound, st)
  | some event =>
    if event.signatures = [] then
      let event2 := { event with signatures := sigs }
      (Except.ok event2, { st with data := mapInsert st.data id event2 })
    else (Except.error Error.EventAlreadySigned, st)

/-- The `OracleEventData` variant of the kormir version the wasm crate builds
against (src/kormir-wasm/src/storage.rs): keyed by the string `event_id`. -/
structure WasmOracleEventData where
  event_id : String
  announcement : OracleAnnouncement
  indexes : List Nat
  signatures : List (String × List Nat)
  announcement_event_id : Option String
  attestation_event_id : Option String
  deriving DecidableEq

/-- `IndexedDb` (src/kormir-wasm/src/storage.rs): an atomic u32 counter, the
persisted copy of that counter (the `nonce_index` key of the object store),
and the stored events keyed by `oracle_data/<event_id>`. -/
structure IndexedDb where
  current_index : Nat
  stored_nonce_index : Option Nat
  events : List (String × WasmOracleEventData)
  deriving DecidableEq

/-- `IndexedDb::get_next_nonce_indexes` (wasm storage.rs lines 162-172): identical
index arithmetic to `MemoryStorage`, plus persisting the post-loop counter value. -/
def IndexedDb.get_next_nonce_indexes (num : Nat) (st : IndexedDb) :
    List Nat × IndexedDb :=
  (nonceIndexesOf num st.current_index,
    { st with
        current_index := nonceCounterAfter num st.current_index,
        stored_nonce_index := some ((st.current_index + num) % 2 ^ 32) })

/-- `IndexedDb::get_event` (wasm storage.rs lines 214-219). -/
def IndexedDb.get_event (event_id : String) (st : IndexedDb) :
    Option WasmOracleEventData :=
  mapGet st.events event_id

/-- `IndexedDb::save_signatures` (wasm storage.rs lines 194-212): `NotFound` for an
unknown event id, `EventAlreadySigned` if signatures are already stored, otherwise
the signatures are written with no count check. -/
def IndexedDb.save_signatures (event_id : String) (sigs : List (String × List Nat))
    (st : IndexedDb) : Except Error WasmOracleEventData × IndexedDb :=
  match IndexedDb.get_event event_id st with
  | none => (Except.error Error.NotFound, st)
  | some event =>
    if event.signatures = [] then
      let event2 := { event with signatures := sigs }
      (Except.ok event2, { st with events := mapInsert st.events event_id event2 })
    else (Except.error Error.EventAlreadySigned, st)

/-- A row of the `events` table (kormir-server models). -/
structure PgEvent where
  id : Nat
  announcement_signature : List Nat
  oracle_event : OracleEvent
  name : String
  is_enum : Bool
  announcement_event_id : Option (List Nat)
  attestation_event_id : Option (List Nat)
  deriving DecidableEq

/-- A row of the `event_nonces` table (kormir-server models). -/
structure EventNonce where
  id : Nat
  event_id : Nat
  index : Nat
  nonce : List Nat
  outcome : Option String
  signature : Option (List Nat)
  deriving DecidableEq

/-- The relational state behind `PostgresStorage`. -/
structure PostgresStorage where
  current_index : Nat
  events : List PgEvent
  event_nonces : List EventNonce
  deriving DecidableEq

/-- One hex digit character. -/
def hexDigit (x : Nat) : Char :=
  if x < 10 then Char.ofNat (48 + x) else Char.ofNat (87 + x)

/-- Lower-case hex encoding of a byte string (`ToHex` on event ids). -/
def bytesToHex (bs : List Nat) : String :=
  String.mk ((bs.map (fun b => [hexDigit (b / 16), hexDigit (b % 16)])).flatten)

/-- Stable insertion into a list sorted by `EventNonce.index`. -/
def insertByIndex (r : EventNonce) : List EventNonce → List EventNonce
  | [] => [r]
  | x :: xs => if r.index ≤ x.index then r :: x :: xs else x :: insertByIndex r xs

/-- `sort_by_key(|nonce| nonce.index)`: stable sort of nonce rows by index. -/
def sortByIndex : List EventNonce → List EventNonce
  | [] => []
  | x :: xs => insertByIndex x (sortByIndex xs)

/-- `PostgresStorage::save_signatures` (src/kormir-server/src/models/mod.rs lines
179-223).  The transaction body fails with `anyhow` errors both when the event id
is unknown and when the number of nonce rows differs from the number of supplied
signatures; the trailing `map_err` collapses every failure to
`Error::StorageFailure`.  There is no already-signed check: matching nonce rows are
overwritten.  The returned `indexes` list holds the nonce row ids (as the source
does), and the store state is unchanged on error. -/
def PostgresStorage.save_signatures (opk : List Nat) (id : Nat)
    (signatures : List (String × List Nat)) (st : PostgresStorage) :
    Except Error OracleEventData × PostgresStorage :=
  match st.events.find? (fun e => decide (e.id = id)) with
  | none => (Except.error Error.StorageFailure, st)
  | some event =>
    let nonces := st.event_nonces.filter (fun r => decide (r.event_id = id))
    if nonces.length = signatures.length then
      let updated := ((sortByIndex nonces).zip signatures).map
        (fun p => { p.1 with outcome := some p.2.1, signature := some p.2.2 })
      let newNonces := st.event_nonces.map
        (fun r =>
          match updated.find? (fun u => decide (u.id = r.id)) with
          | some u => u
          | none => r)
      (Except.ok
        { id := some id,
          announcement :=
            { announcement_signature := event.announcement_signature,
              oracle_public_key := opk,
              oracle_event := event.oracle_event },
          indexes := updated.map (fun r => r.id),
          signatures := signatures,
          announcement_event_id := event.announcement_event_id.map bytesToHex,
          attestation_event_id := event.attestation_event_id.map bytesToHex },
        { st with event_nonces := newNonces })
    else (Except.error Error.StorageFailure, st)

/-- The 64-byte constant `SCHNORR_TAG_BYTES` from src/kormir/src/utils.rs
(`sha256("BIP0340/challenge")` twice, cached by the source as a literal). -/
def SCHNORR_TAG_BYTES : List Nat :=
  [123, 181, 45, 122, 159, 239, 88, 50, 62, 177, 191, 122, 64, 125, 179, 130,
   210, 243, 242, 216, 27, 177, 34, 79, 73, 254, 81, 143, 109, 72, 211, 124,
   123, 181, 45, 122, 159, 239, 88, 50, 62, 177, 191, 122, 64, 125, 179, 130,
   210, 243, 242, 216, 27, 177, 34, 79, 73, 254, 81, 143, 109, 72, 211, 124]

/-- The facts about secp256k1 x-only points that the external secp256k1 library
guarantees and that the signing code relies on.  A point `d • G` is represented by
its discrete logarithm `d : ZMod n` (`n` the prime group order): `xbytes d` is the
32-byte x-only serialization of `d • G`, `hasEvenY d` its BIP-340 Y-parity, and
`liftx` the BIP-340 even-Y lift of an x-only serialization. -/
structure SchnorrCurve (n : Nat) where
  xbytes : ZMod n → List Nat
  hasEvenY : ZMod n → Bool
  liftx : List Nat → Option (ZMod n)
  one_lt : 1 < n
  n_le : n ≤ 2 ^ 256
  xbytes_len : ∀ d, (xbytes d).length = 32
  xbytes_neg : ∀ d, xbytes (-d) = xbytes d
  hasEvenY_neg : ∀ d : ZMod n, d ≠ 0 → hasEvenY (-d) = !hasEvenY d
  liftx_xbytes : ∀ d : ZMod n, d ≠ 0 →
    liftx (xbytes d) = some (if hasEvenY d then d else -d)

/-- `get_schnorr_key` (src/kormir/src/utils.rs lines 14-25): the x-only public key
of the secret, with the secret negated when its point has odd Y. -/
def get_schnorr_key {n : Nat} (C : SchnorrCurve n) (key : ZMod n) :
    List Nat × ZMod n :=
  if C.hasEvenY key then (C.xbytes key, key) else (C.xbytes (-key), -key)

/-- `schnorr_sign_with_nonce` (src/kormir/src/utils.rs lines 29-56).  `hash` is the
external SHA-256, as a function from bytes to the digest value.  The source unwraps
`Scalar::from_be_bytes` (fails iff the digest is not below the group order) and the
`mul_tweak` / `add_tweak` results (fail iff the resulting scalar is zero); those
panics are modelled as `none`. -/
def schnorr_sign_with_nonce {n : Nat} (C : SchnorrCurve n) (hash : List Nat → Nat)
    (msg : List Nat) (key nonce_key : ZMod n) : Option (List Nat) :=
  let rxk := get_schnorr_key C nonce_key
  let xox := get_schnorr_key C key
  let e := hash (SCHNORR_TAG_BYTES ++ rxk.1 ++ xox.1 ++ msg)
  if e < n then
    let challenge := xox.2 * (e : ZMod n)
    if challenge = 0 then none
    else
      let s := rxk.2 + challenge
      if s = 0 then none
      else some (rxk.1 ++ natToBytesBE 32 s.val)
  else none

/-- Modelled from the spec: BIP-340 Schnorr verification (`secp.verify_schnorr` of
the external secp256k1 library, named by the spec as `schnorr_verify`).  In the
discrete-logarithm representation: lift the x-only public key, recompute the
challenge, form `R = s • G - e • P` and require it to be finite, even-Y, and to
serialize to the signature's first 32 bytes (the r-bytes field-range check of
BIP-340 is subsumed by that comparison). -/
def schnorr_verify {n : Nat} (C : SchnorrCurve n) (hash : List Nat → Nat)
    (sig msg pk : List Nat) : Bool :=
  if sig.length = 64 then
    match C.liftx pk with
    | none => false
    | some P =>
      let rb := sig.take 32
      let sN := bytesToNatBE (sig.drop 32)
      if sN < n then
        let e : ZMod n := (hash (SCHNORR_TAG_BYTES ++ rb ++ pk ++ msg) : ZMod n)
        let R := (sN : ZMod n) - e * P
        decide (R ≠ 0) && C.hasEvenY R && decide (C.xbytes R = rb)
      else false
  else false

/-- `Oracle::get_nonce_key` (src/kormir/src/lib.rs lines 84-92).
`ChildNumber::from_hardened_idx(index).unwrap()` panics for `index ≥ 2 ^ 31`; the
actual hardened-child derivation from `nonce_xpriv` (HMAC-SHA512 based CKDpriv of
the external rust-bitcoin library, which can itself fail with negligible
probability and is then unwrapped) is the parameter `ckd`.  `none` models the
panic. -/
def Oracle.get_nonce_key {n : Nat} (ckd : Nat → Option (ZMod n)) (index : Nat) :
    Option (ZMod n) :=
  if index < 2 ^ 31 then ckd index else none

/-- Modelled from the spec: `OracleEvent::validate` is implemented by the external
dlc-messages crate, whose source is not part of this repository.  The spec states
it rejects an event whose `event_id` is empty, whose enum outcome list is empty,
or whose enum outcome list contains duplicates. -/
def OracleEvent.validate (ev : OracleEvent) : Bool :=
  decide (ev.event_id ≠ "") &&
    match ev.event_descriptor with
    | EventDescriptor.EnumEvent d => decide (d.outcomes ≠ []) && decide d.outcomes.Nodup
    | EventDescriptor.DigitDecompositionEvent => true

/-- The cryptographic context of an `Oracle` (src/kormir/src/lib.rs): the curve
facts, the external SHA-256, the signing scalar, the hardened-child derivation
from the oracle's `nonce_xpriv` (`ckd`), the external deterministic BIP-340 signer
used for announcements (`annSign`, applied to the event whose encoding is hashed
and signed), and the external `OracleAnnouncement::validate` of dlc-messages
(`annValidate`). -/
structure OracleCtx (n : Nat) where
  curve : SchnorrCurve n
  hash : List Nat → Nat
  signing_key : ZMod n
  ckd : Nat → Option (ZMod n)
  annSign : OracleEvent → List Nat
  annValidate : OracleAnnouncement → Bool

/-- `Oracle::create_enum_event` (src/kormir/src/lib.rs lines 94-136) against
`MemoryStorage`.  `rid` is the random u32 drawn inside `save_announcement`.
Outer `none` models a panic inside nonce derivation; validation failures are
mapped to `Error::Internal` as in the source. -/
def Oracle.create_enum_event {n : Nat} (O : OracleCtx n) (rid : Nat)
    (event_id : String) (outcomes : List String) (event_maturity_epoch : Nat)
    (st : MemoryStorage) :
    Option (Except Error (Nat × OracleAnnouncement) × MemoryStorage) :=
  let ind := MemoryStorage.get_next_nonce_indexes 1 st
  match ind.1.mapM (fun i => (Oracle.get_nonce_key O.ckd i).map O.curve.xbytes) with
  | none => none
  | some oracle_nonces =>
    let oracle_event : OracleEvent :=
      { oracle_nonces := oracle_nonces, event_id := event_id,
        event_maturity_epoch := event_maturity_epoch,
        event_descriptor := EventDescriptor.EnumEvent { outcomes := outcomes } }
    if oracle_event.validate then
      let ann : OracleAnnouncement :=
        { announcement_signature := O.annSign oracle_event,
          oracle_public_key := O.curve.xbytes O.signing_key,
          oracle_event := oracle_event }
      if O.annValidate ann then
        let saved := MemoryStorage.save_announcement rid ann ind.1 ind.2
        some (Except.ok (saved.1, ann), saved.2)
      else some (Except.error Error.Internal, ind.2)
    else some (Except.error Error.Internal, ind.2)

/-- `Oracle::sign_enum_event` (src/kormir/src/lib.rs lines 138-195) against
`MemoryStorage`, following the source's check order exactly; `none` models a panic
(nonce derivation or the scalar unwraps inside `schnorr_sign_with_nonce`). -/
def Oracle.sign_enum_event {n : Nat} (O : OracleCtx n) (id : Nat) (outcome : String)
    (st : MemoryStorage) :
    Option (Except Error OracleAttestation × MemoryStorage) :=
  match MemoryStorage.get_event id st with
  | none => some (Except.error Error.NotFound, st)
  | some data =>
    if data.signatures = [] then
      if data.indexes.length = 1 then
        match data.announcement.oracle_event.event_descriptor with
        | EventDescriptor.DigitDecompositionEvent =>
          some (Except.error Error.Internal, st)
        | EventDescriptor.EnumEvent desc =>
          if outcome ∈ desc.outcomes then
            match data.indexes.head? with
            | none => none
            | some nonce_index =>
              match Oracle.get_nonce_key O.ckd nonce_index with
              | none => none
              | some nonce_key =>
                let msg := natToBytesBE 32 (O.hash (strBytes outcome))
                match schnorr_sign_with_nonce O.curve O.hash msg O.signing_key
                    nonce_key with
                | none => none
                | some sig =>
                  if schnorr_verify O.curve O.hash sig msg
                      (O.curve.xbytes O.signing_key) then
                    match MemoryStorage.save_signatures id [(outcome, sig)] st with
                    | (Except.error e, st2) => some (Except.error e, st2)
                    | (Except.ok _, st2) =>
                      some (Except.ok
                        { oracle_public_key := O.curve.xbytes O.signing_key,
                          signatures := [sig], outcomes := [outcome] }, st2)
                  else some (Except.error Error.Internal, st)
          else some (Except.error Error.InvalidOutcome, st)
      else some (Except.error Error.Internal, st)
    else some (Except.error Error.EventAlreadySigned, st)

/-- The key material held by an `Oracle` (src/kormir/src/lib.rs lines 31-37);
`Xpriv` is the type of BIP-32 extended private keys of the external rust-bitcoin
library. -/
structure OracleKeys (n : Nat) (Xpriv : Type) where
  signing_key : ZMod n
  nonce_xpriv : Xpriv
  deriving DecidableEq

/-- The free function `derive_signing_key` (src/kormir/src/lib.rs lines 198-210):
derive the signing scalar at the BIP-86 path; `deriveSigningPath` is that external
BIP-32 derivation, whose failure is mapped to `Error::Internal`. -/
def derive_signing_key {n : Nat} {Xpriv : Type}
    (deriveSigningPath : Xpriv → Option (ZMod n)) (xpriv : Xpriv) :
    Except Error (ZMod n) :=
  match deriveSigningPath xpriv with
  | none => Except.error Error.Internal
  | some k => Except.ok k

/-- `Oracle::from_signing_key` (src/kormir/src/lib.rs lines 57-70): the nonce
master is `ExtendedPrivKey::new_master(Bitcoin, sha256(signing_key_bytes))`;
`newMaster` and `sha256B` are those external primitives.  A `new_master` failure is
mapped to `Error::Internal`. -/
def Oracle.from_signing_key {n : Nat} {Xpriv : Type}
    (newMaster : List Nat → Option Xpriv) (sha256B : List Nat → List Nat)
    (signing_key : ZMod n) : Except Error (OracleKeys n Xpriv) :=
  match newMaster (sha256B (natToBytesBE 32 signing_key.val)) with
  | none => Except.error Error.Internal
  | some nonce_xpriv =>
    Except.ok { signing_key := signing_key, nonce_xpriv := nonce_xpriv }

/-- `Oracle::from_xpriv` (src/kormir/src/lib.rs lines 50-55): derive the signing
key from the supplied root, then delegate to `from_signing_key`.  (The constant
`NONCE_KEY_PATH` declared at lib.rs line 29 is not used here or anywhere else.) -/
def Oracle.from_xpriv {n : Nat} {Xpriv : Type}
    (newMaster : List Nat → Option Xpriv) (sha256B : List Nat → List Nat)
    (deriveSigningPath : Xpriv → Option (ZMod n)) (xpriv : Xpriv) :
    Except Error (OracleKeys n Xpriv) :=
  match derive_signing_key deriveSigningPath xpriv with
  | Except.error e => Except.error e
  | Except.ok signing_key => Oracle.from_signing_key newMaster sha256B signing_key

/-- x-only serialization in the executable curve model: the 32-byte big-endian
encoding of the smaller of `d` and `n - d` (so that `d` and `-d` serialize
identically, as on secp256k1). -/
def toyXbytes (d : ZMod 5) : List Nat := natToBytesBE 32 (min d.val (5 - d.val))

/-- A small executable model of the `SchnorrCurve` facts (group order 5), used to
witness the parameterized theorems on concrete inputs. -/
def toyCurve : SchnorrCurve 5 where
  xbytes := toyXbytes
  hasEvenY d := decide (d.val ≤ 2)
  liftx bs :=
    if bs = toyXbytes 1 then some 1
    else if bs = toyXbytes 2 then some 2
    else none
  one_lt := by norm_num
  n_le := by norm_num
  xbytes_len := by decide
  xbytes_neg := by decide
  hasEvenY_neg := by decide
  liftx_xbytes := by decide

/-- A concrete oracle context over `toyCurve` for witnesses. -/
def toyCtx : OracleCtx 5 where
  curve := toyCurve
  hash := fun _ => 1
  signing_key := 1
  ckd := fun _ => some 1
  annSign := fun _ => []
  annValidate := fun _ => true

/-- The oracle event produced by the witness run of `create_enum_event`. -/
def c3event : OracleEvent where
  oracle_nonces := [toyXbytes 1]
  event_id := "test"
  event_maturity_epoch := 100
  event_descriptor := EventDescriptor.EnumEvent { outcomes := ["a", "b"] }

/-- The announcement produced by the witness run of `create_enum_event`. -/
def c3ann : OracleAnnouncement where
  announcement_signature := []
  oracle_public_key := toyXbytes 1
  oracle_event := c3event

/-- The stored event after the witness `create_enum_event`. -/
def c3stored : OracleEventData where
  id := some 7
  announcement := c3ann
  indexes := [0]
  signatures := []
  announcement_event_id := none
  attestation_event_id := none

/-- The store state after the witness `create_enum_event`. -/
def c3st1 : MemoryStorage := ⟨1, [(7, c3stored)]⟩

/-- The signature produced by the witness `sign_enum_event`. -/
def c3sig : List Nat := toyXbytes 1 ++ natToBytesBE 32 2

/-- The attestation produced by the witness `sign_enum_event`. -/
def c3att : OracleAttestation where
  oracle_public_key := toyXbytes 1
  signatures := [c3sig]
  outcomes := ["a"]

/-- The store state after the witness `sign_enum_event`. -/
def c3st2 : MemoryStorage :=
  ⟨1, [(7, { c3stored with signatures := [("a", c3sig)] })]⟩

/-- A concrete announcement fixture. -/
def sampleAnn : OracleAnnouncement where
  announcement_signature := []
  oracle_public_key := []
  oracle_event :=
    { oracle_nonces := [[1]], event_id := "test", event_maturity_epoch := 100,
      event_descriptor := EventDescriptor.EnumEvent { outcomes := ["a", "b"] } }

/-- A stored event with two nonce indexes and no signatures. -/
def twoIdxEvent : OracleEventData where
  id := some 3
  announcement := sampleAnn
  indexes := [0, 1]
  signatures := []
  announcement_event_id := none
  attestation_event_id := none

/-- A store holding `twoIdxEvent` under id 3. -/
def twoIdxStore : MemoryStorage := ⟨2, [(3, twoIdxEvent)]⟩

/-- A stored event that already carries a signature. -/
def signedEvent : OracleEventData :=
  { twoIdxEvent with id := some 4, indexes := [0], signatures := [("a", [1])] }

/-- A store holding the already-signed `signedEvent` under id 4. -/
def signedStore : MemoryStorage := ⟨2, [(4, signedEvent)]⟩

/-- A stored enum event with one nonce index and no signatures. -/
def enumEvent1 : OracleEventData :=
  { twoIdxEvent with id := some 5, indexes := [0] }

/-- A store holding `enumEvent1` under id 5. -/
def enumStore : MemoryStorage := ⟨1, [(5, enumEvent1)]⟩

/-- The empty memory store. -/
def emptyStore : MemoryStorage := ⟨0, []⟩

/-- A wasm stored event without signatures. -/
def wasmEvent : WasmOracleEventData where
  event_id := "test"
  announcement := sampleAnn
  indexes := [0]
  signatures := []
  announcement_event_id := none
  attestation_event_id := none

/-- A wasm stored event that already carries a signature. -/
def wasmSigned : WasmOracleEventData := { wasmEvent with signatures := [("a", [1])] }

/-- An IndexedDb state holding the unsigned `wasmEvent`. -/
def idbUnsigned : IndexedDb := ⟨1, none, [("test", wasmEvent)]⟩

/-- An IndexedDb state holding the signed `wasmSigned`. -/
def idbSigned : IndexedDb := ⟨1, none, [("test", wasmSigned)]⟩

/-- The empty IndexedDb state. -/
def idbEmpty : IndexedDb := ⟨0, none, []⟩

/-- A Postgres events row fixture. -/
def pgEvent : PgEvent :=
  ⟨1, [], sampleAnn.oracle_event, "test", true, none, none⟩

/-- A Postgres nonce row that already carries an outcome and signature. -/
def pgNonceA : EventNonce := ⟨10, 1, 0, [1], some ("a"), some [2]⟩

/-- A Postgres nonce row with no signature yet. -/
def pgNonceB : EventNonce := ⟨11, 1, 1, [3], none, none⟩

/-- A Postgres state with one event and two nonce rows (one already signed). -/
def pgStore : PostgresStorage := ⟨2, [pgEvent], [pgNonceA, pgNonceB]⟩

/-- The empty Postgres state. -/
def pgEmpty : PostgresStorage := ⟨0, [], []⟩

theorem natToBytesBE_length : ∀ (len x : Nat), (natToBytesBE len x).length = len
  | 0, _ => rfl
  | len + 1, x => by
    simp [natToBytesBE, natToBytesBE_length len]

theorem bytesToNatBE_append_singleton (l : List Nat) (b : Nat) :
    bytesToNatBE (l ++ [b]) = 256 * bytesToNatBE l + b := by
  simp [bytesToNatBE, List.foldl_append, Nat.mul_comm]

theorem bytesToNatBE_natToBytesBE :
    ∀ (len x : Nat), x < 256 ^ len → bytesToNatBE (natToBytesBE len x) = x
  | 0, x, h => by
    interval_cases x
    rfl
  | len + 1, x, h => by
    have hdiv : x / 256 < 256 ^ len := by
      rw [Nat.div_lt_iff_lt_mul (by norm_num)]
      calc x < 256 ^ (len + 1) := h
        _ = 256 ^ len * 256 := by ring
    rw [natToBytesBE, bytesToNatBE_append_singleton,
      bytesToNatBE_natToBytesBE len (x / 256) hdiv]
    omega

theorem mapGet_mapInsert_self {α β : Type} [DecidableEq α]
    (db : List (α × β)) (k : α) (v : β) : mapGet (mapInsert db k v) k = some v := by
  simp [mapGet, mapInsert, List.find?]

theorem nonceIndexesOf_eq_range' {num c : Nat} (h : c + num ≤ 2 ^ 32) :
    nonceIndexesOf num c = List.range' c num := by
  rw [nonceIndexesOf, List.range'_eq_map_range]
  apply List.map_congr_left
  intro i hi
  have hi2 : i < num := List.mem_range.mp hi
  exact Nat.mod_eq_of_lt (by omega)

theorem runNonceCalls_spec :
    ∀ (nums : List Nat) (c : Nat), c < 2 ^ 32 → c + nums.sum ≤ 2 ^ 32 →
      (runNonceCalls nums c).1.flatten = List.range' c nums.sum ∧
      (runNonceCalls nums c).2 = (c + nums.sum) % 2 ^ 32
  | [], c, hc, _ => by
    constructor
    · simp [runNonceCalls]
    · have hc4 : c < 4294967296 := by
        norm_num at hc
        exact hc
      simp [runNonceCalls, Nat.mod_eq_of_lt hc4]
  | num :: rest, c, hc, h => by
    have e32 : (2 : Nat) ^ 32 = 4294967296 := by norm_num
    have hsum : (num :: rest).sum = num + rest.sum := List.sum_cons
    have hcn : c + num ≤ 2 ^ 32 := by rw [hsum] at h; omega
    rcases Nat.lt_or_ge (c + num) (2 ^ 32) with hlt | hge
    · have hafter : nonceCounterAfter num c = c + num := by
        rw [nonceCounterAfter, e32] at *
        omega
      have ih := runNonceCalls_spec rest (c + num) hlt (by rw [hsum] at h; omega)
      constructor
      · show (nonceIndexesOf num c :: (runNonceCalls rest _).1).flatten = _
        rw [List.flatten_cons, hafter, ih.1, nonceIndexesOf_eq_range' hcn, hsum,
          Nat.add_comm num rest.sum]
        exact List.range'_append_1 c num rest.sum
      · show (runNonceCalls rest (nonceCounterAfter num c)).2 = _
        rw [hafter, ih.2, hsum, Nat.add_assoc]
    · have heq : c + num = 2 ^ 32 := by omega
      have hrest : rest.sum = 0 := by rw [hsum] at h; omega
      have hafter : nonceCounterAfter num c = 0 := by
        rw [nonceCounterAfter, e32] at *
        omega
      have ih := runNonceCalls_spec rest 0 (by norm_num) (by rw [hrest]; norm_num)
      constructor
      · show (nonceIndexesOf num c :: (runNonceCalls rest _).1).flatten = _
        rw [List.flatten_cons, hafter, ih.1, hrest, nonceIndexesOf_eq_range' hcn,
          hsum, hrest]
        simp
      · show (runNonceCalls rest (nonceCounterAfter num c)).2 = _
        rw [hafter, ih.2, hsum, hrest, e32] at *
        omega

/-- Claim C1 (amended): both `MemoryStorage::get_next_nonce_indexes` and
`IndexedDb::get_next_nonce_indexes` return the indexes `nonceIndexesOf` computes,
and — provided the total number of indexes ever requested from the store is at
most `2 ^ 32`, so the u32 counter does not wrap — the concatenation of all index
lists returned over the store's lifetime is exactly `0, 1, 2, …`: each call's
indexes are strictly consecutive, strictly greater than every earlier index, and
the multiset of all returned indexes has no duplicates. -/
theorem claim_C1_amended (nums : List Nat) (h : nums.sum ≤ 2 ^ 32) :
    (∀ (num : Nat) (st : MemoryStorage),
      (MemoryStorage.get_next_nonce_indexes num st).1 =
        nonceIndexesOf num st.current_index) ∧
    (∀ (num : Nat) (st : IndexedDb),
      (IndexedDb.get_next_nonce_indexes num st).1 =
        nonceIndexesOf num st.current_index) ∧
    (runNonceCalls nums 0).1.flatten = List.range nums.sum ∧
    (runNonceCalls nums 0).1.flatten.Nodup := by
  have hs := runNonceCalls_spec nums 0 (by norm_num) (by omega)
  refine ⟨fun _ _ => rfl, fun _ _ => rfl, ?_, ?_⟩
  · rw [hs.1, List.range_eq_range' nums.sum]
  · rw [hs.1]
    exact List.nodup_range' 0 nums.sum

/-- Claim C1 amended, witnessed on the call sequence requesting 1 then 2 indexes. -/
theorem claim_C1_amended_witness :
    [1, 2].sum ≤ 2 ^ 32 ∧
      (runNonceCalls [1, 2] 0).1.flatten = List.range [1, 2].sum ∧
      (runNonceCalls [1, 2] 0).1.flatten.Nodup :=
  ⟨by norm_num, (claim_C1_amended [1, 2] (by norm_num)).2.2.1,
    (claim_C1_amended [1, 2] (by norm_num)).2.2.2⟩

/-- Claim C1 counterexample: requesting 2^31, 2^31 and then 1 indexes from a fresh
store wraps the u32 counter back to 0, and the third call returns index 0, which
the first call already returned — the multiset of all returned indexes contains a
duplicate, and the third call's index is not greater than all earlier ones. -/
theorem claim_C1_counterexample :
    ¬ (runNonceCalls [2 ^ 31, 2 ^ 31, 1] 0).1.flatten.Nodup := by
  intro hnd
  have hca : nonceCounterAfter (2 ^ 31) 0 = 2 ^ 31 := by
    rw [nonceCounterAfter]
    norm_num
  have hcb : nonceCounterAfter (2 ^ 31) (2 ^ 31) = 0 := by
    rw [nonceCounterAfter]
    norm_num
  simp only [runNonceCalls, hca, hcb, List.flatten_cons, List.flatten_nil,
    List.append_nil] at hnd
  have h1 : (0 : Nat) ∈ nonceIndexesOf (2 ^ 31) 0 := by
    rw [nonceIndexesOf]
    exact List.mem_map.mpr ⟨0, List.mem_range.mpr (by norm_num), by norm_num⟩
  have h3 : (0 : Nat) ∈ nonceIndexesOf 1 0 := by
    rw [nonceIndexesOf]
    exact List.mem_map.mpr ⟨0, List.mem_range.mpr (by norm_num), by norm_num⟩
  exact List.disjoint_of_nodup_append hnd h1
    (List.mem_append_right _ h3)

/-- Claim C7 counterexample: even with an always-succeeding child derivation, the
nonce key derivation panics (models to `none`) at the non-hardened index `2 ^ 31`,
so it is not total on u32. -/
theorem claim_C7_counterexample :
    Oracle.get_nonce_key (fun _ => some (1 : ZMod 5)) (2 ^ 31) = none := by
  simp [Oracle.get_nonce_key]

/-- Claim C7 (amended): `get_nonce_key` is a pure function of the index — hence
deterministic — and on hardened indexes (`index < 2 ^ 31`) it returns exactly the
underlying BIP-32 hardened-child derivation's result, so it returns a key whenever
that derivation does; for `index ≥ 2 ^ 31` it panics (`from_hardened_idx` unwrap). -/
theorem claim_C7_amended {n : Nat} (ckd : Nat → Option (ZMod n)) (index : Nat) :
    (index < 2 ^ 31 → Oracle.get_nonce_key ckd index = ckd index) ∧
    (2 ^ 31 ≤ index → Oracle.get_nonce_key ckd index = none) := by
  constructor <;> intro h
  · rw [Oracle.get_nonce_key, if_pos h]
  · rw [Oracle.get_nonce_key, if_neg (by omega)]

/-- Claim C7 amended, witnessed at index 0 with a concrete derivation. -/
theorem claim_C7_amended_witness :
    (0 : Nat) < 2 ^ 31 ∧
      Oracle.get_nonce_key (fun _ => some (1 : ZMod 5)) 0 = some 1 :=
  ⟨by norm_num, (claim_C7_amended (fun _ => some (1 : ZMod 5)) 0).1 (by norm_num)⟩

theorem get_schnorr_key_fst {n : Nat} (C : SchnorrCurve n) (d : ZMod n) :
    (get_schnorr_key C d).1 = C.xbytes d := by
  rw [get_schnorr_key]
  split_ifs
  · rfl
  · exact C.xbytes_neg d

theorem get_schnorr_key_fst_eq_snd {n : Nat} (C : SchnorrCurve n) (d : ZMod n) :
    (get_schnorr_key C d).1 = C.xbytes (get_schnorr_key C d).2 := by
  rw [get_schnorr_key]
  split_ifs <;> rfl

theorem get_schnorr_key_fst_length {n : Nat} (C : SchnorrCurve n) (d : ZMod n) :
    (get_schnorr_key C d).1.length = 32 := by
  rw [get_schnorr_key_fst]
  exact C.xbytes_len d

theorem get_schnorr_key_snd_ne_zero {n : Nat} (C : SchnorrCurve n) {d : ZMod n}
    (hd : d ≠ 0) : (get_schnorr_key C d).2 ≠ 0 := by
  rw [get_schnorr_key]
  split_ifs
  · exact hd
  · simpa using hd

theorem get_schnorr_key_even {n : Nat} (C : SchnorrCurve n) {d : ZMod n}
    (hd : d ≠ 0) : C.hasEvenY (get_schnorr_key C d).2 = true := by
  rw [get_schnorr_key]
  split_ifs with h
  · exact h
  · have h' : C.hasEvenY d = false := by
      cases hcase : C.hasEvenY d
      · rfl
      · exact absurd hcase h
    rw [C.hasEvenY_neg d hd, h']
    rfl

theorem liftx_get_schnorr_key {n : Nat} (C : SchnorrCurve n) {d : ZMod n}
    (hd : d ≠ 0) : C.liftx (C.xbytes d) = some (get_schnorr_key C d).2 := by
  rw [C.liftx_xbytes d hd, get_schnorr_key]
  split_ifs <;> rfl

theorem schnorr_sign_with_nonce_some {n : Nat} (C : SchnorrCurve n)
    (hash : List Nat → Nat) (msg : List Nat) (key nonce_key : ZMod n)
    (sig : List Nat)
    (hsig : schnorr_sign_with_nonce C hash msg key nonce_key = some sig) :
    sig = (get_schnorr_key C nonce_key).1 ++
        natToBytesBE 32 ((get_schnorr_key C nonce_key).2 +
          (get_schnorr_key C key).2 *
            ((hash (SCHNORR_TAG_BYTES ++ (get_schnorr_key C nonce_key).1 ++
              (get_schnorr_key C key).1 ++ msg) : Nat) : ZMod n)).val ∧
      hash (SCHNORR_TAG_BYTES ++ (get_schnorr_key C nonce_key).1 ++
        (get_schnorr_key C key).1 ++ msg) < n := by
  simp only [schnorr_sign_with_nonce] at hsig
  split_ifs at hsig with h1 h2 h3
  exact ⟨(Option.some.inj hsig).symm, h1⟩

/-- Claim C2: whenever `schnorr_sign_with_nonce` returns (its internal scalar
unwraps did not panic; the keys are nonzero, as Rust's `SecretKey` type
guarantees), the signature is 64 bytes, its first 32 bytes are the serialized
x-only public key of the parity-normalized nonce key, and it passes BIP-340
verification against the message and the signing key's x-only public key. -/
theorem claim_C2 {n : Nat} (C : SchnorrCurve n) (hash : List Nat → Nat)
    (msg : List Nat) (key nonce_key : ZMod n) (hkey : key ≠ 0)
    (hnonce : nonce_key ≠ 0) (sig : List Nat)
    (hsig : schnorr_sign_with_nonce C hash msg key nonce_key = some sig) :
    sig.length = 64 ∧ sig.take 32 = (get_schnorr_key C nonce_key).1 ∧
      schnorr_verify C hash sig msg (C.xbytes key) = true := by
  haveI : NeZero n := ⟨by have := C.one_lt; omega⟩
  obtain ⟨hsig', he⟩ :=
    schnorr_sign_with_nonce_some C hash msg key nonce_key sig hsig
  subst hsig'
  rw [get_schnorr_key_fst C key] at he ⊢
  have hlrx : (get_schnorr_key C nonce_key).1.length = 32 :=
    get_schnorr_key_fst_length C nonce_key
  have hlen : ((get_schnorr_key C nonce_key).1 ++
      natToBytesBE 32 ((get_schnorr_key C nonce_key).2 +
        (get_schnorr_key C key).2 *
          ((hash (SCHNORR_TAG_BYTES ++ (get_schnorr_key C nonce_key).1 ++
            C.xbytes key ++ msg) : Nat) : ZMod n)).val).length = 64 := by
    simp [hlrx, natToBytesBE_length]
  refine ⟨hlen, List.take_left' hlrx, ?_⟩
  have hsval : bytesToNatBE (natToBytesBE 32
      (ZMod.val ((get_schnorr_key C nonce_key).2 +
        (get_schnorr_key C key).2 *
          ((hash (SCHNORR_TAG_BYTES ++ (get_schnorr_key C nonce_key).1 ++
            C.xbytes key ++ msg) : Nat) : ZMod n)))) =
      ZMod.val ((get_schnorr_key C nonce_key).2 +
        (get_schnorr_key C key).2 *
          ((hash (SCHNORR_TAG_BYTES ++ (get_schnorr_key C nonce_key).1 ++
            C.xbytes key ++ msg) : Nat) : ZMod n)) := by
    apply bytesToNatBE_natToBytesBE
    calc ZMod.val _ < n := ZMod.val_lt _
      _ ≤ 2 ^ 256 := C.n_le
      _ = 256 ^ 32 := by norm_num
  rw [schnorr_verify, if_pos hlen, liftx_get_schnorr_key C hkey]
  simp only [List.take_left' hlrx, List.drop_left' hlrx, hsval]
  rw [if_pos (ZMod.val_lt _)]
  rw [ZMod.natCast_rightInverse _]
  have hR : (get_schnorr_key C nonce_key).2 +
        (get_schnorr_key C key).2 *
          ((hash (SCHNORR_TAG_BYTES ++ (get_schnorr_key C nonce_key).1 ++
            C.xbytes key ++ msg) : Nat) : ZMod n) -
      ((hash (SCHNORR_TAG_BYTES ++ (get_schnorr_key C nonce_key).1 ++
        C.xbytes key ++ msg) : Nat) : ZMod n) * (get_schnorr_key C key).2 =
      (get_schnorr_key C nonce_key).2 := by
    ring
  rw [hR]
  simp [get_schnorr_key_snd_ne_zero C hnonce, get_schnorr_key_even C hnonce,
    ← get_schnorr_key_fst_eq_snd]

/-- Claim C2, witnessed in the executable curve model. -/
theorem claim_C2_witness :
    (1 : ZMod 5) ≠ 0 ∧
    schnorr_sign_with_nonce toyCurve (fun _ => 1) [] 1 1 =
      some (toyXbytes 1 ++ natToBytesBE 32 2) ∧
    ((toyXbytes 1 ++ natToBytesBE 32 2).length = 64 ∧
      (toyXbytes 1 ++ natToBytesBE 32 2).take 32 = (get_schnorr_key toyCurve 1).1 ∧
      schnorr_verify toyCurve (fun _ => 1) (toyXbytes 1 ++ natToBytesBE 32 2) []
        (toyCurve.xbytes 1) = true) :=
  ⟨by decide, by decide,
    claim_C2 toyCurve (fun _ => 1) [] 1 1 (by decide) (by decide)
      (toyXbytes 1 ++ natToBytesBE 32 2) (by decide)⟩

/-- Claim C8 counterexample: with a challenge digest that is not a valid scalar
(overflow), `schnorr_sign_with_nonce` panics on an `unwrap` (modelled `none`) —
it does not return `Error::Internal`, and indeed its return type carries no error
channel at all. -/
theorem claim_C8_counterexample :
    schnorr_sign_with_nonce toyCurve (fun _ => 7) [] 1 1 = none := by decide

/-- Claim C8 (amended): `schnorr_sign_with_nonce` is a pure function, and it fails
— by panicking on an `unwrap` (modelled as `none`), not by returning
`Error::Internal` — exactly when a scalar operation produces an overflow or zero
result: the challenge digest is not below the group order, the `mul_tweak` result
is zero, or the `add_tweak` result is zero. -/
theorem claim_C8_amended {n : Nat} (C : SchnorrCurve n) (hash : List Nat → Nat)
    (msg : List Nat) (key nonce_key : ZMod n) :
    schnorr_sign_with_nonce C hash msg key nonce_key = none ↔
      (n ≤ hash (SCHNORR_TAG_BYTES ++ (get_schnorr_key C nonce_key).1 ++
          (get_schnorr_key C key).1 ++ msg) ∨
        (get_schnorr_key C key).2 *
          ((hash (SCHNORR_TAG_BYTES ++ (get_schnorr_key C nonce_key).1 ++
            (get_schnorr_key C key).1 ++ msg) : Nat) : ZMod n) = 0 ∨
        (get_schnorr_key C nonce_key).2 + (get_schnorr_key C key).2 *
          ((hash (SCHNORR_TAG_BYTES ++ (get_schnorr_key C nonce_key).1 ++
            (get_schnorr_key C key).1 ++ msg) : Nat) : ZMod n) = 0) := by
  simp only [schnorr_sign_with_nonce]
  split_ifs with h1 h2 h3
  · exact iff_of_true rfl (Or.inr (Or.inl h2))
  · exact iff_of_true rfl (Or.inr (Or.inr h3))
  · refine iff_of_false (by simp) ?_
    push_neg
    exact ⟨by omega, h2, h3⟩
  · exact iff_of_true rfl (Or.inl (by omega))

/-- Claim C9 counterexample: at a concrete instantiation of the external
primitives, constructing the oracle from an xpriv and constructing it from the
signing key derived from that xpriv yield exactly the same key material (the same
nonce master), so no nonce index distinguishes them — `from_xpriv` delegates to
`from_signing_key`. -/
theorem claim_C9_counterexample :
    @Oracle.from_xpriv 5 Nat (fun _ => some 0) (fun bs => bs)
        (fun _ => some 1) 0 =
      @Oracle.from_signing_key 5 Nat (fun _ => some 0) (fun bs => bs) 1 := rfl

/-- Claim C9 (amended): whenever the signing-key derivation from `xpriv` succeeds
with `sk`, `from_xpriv` returns exactly `from_signing_key sk` — both constructions
build the identical nonce master (`from_xpriv` delegates; the `NONCE_KEY_PATH`
constant is unused). -/
theorem claim_C9_amended {n : Nat} {Xpriv : Type}
    (newMaster : List Nat → Option Xpriv) (sha256B : List Nat → List Nat)
    (deriveSigningPath : Xpriv → Option (ZMod n)) (xpriv : Xpriv) (sk : ZMod n)
    (h : derive_signing_key deriveSigningPath xpriv = Except.ok sk) :
    Oracle.from_xpriv newMaster sha256B deriveSigningPath xpriv =
      Oracle.from_signing_key newMaster sha256B sk := by
  unfold Oracle.from_xpriv
  rw [h]

/-- Claim C9 amended, witnessed at a concrete xpriv. -/
theorem claim_C9_amended_witness :
    @derive_signing_key 5 Nat (fun _ => some 2) 3 = Except.ok 2 ∧
      @Oracle.from_xpriv 5 Nat (fun _ => some 9) (fun bs => bs)
          (fun _ => some 2) 3 =
        @Oracle.from_signing_key 5 Nat (fun _ => some 9)
          (fun bs => bs) 2 :=
  ⟨rfl, @claim_C9_amended 5 Nat (fun _ => some 9) (fun bs => bs)
    (fun _ => some 2) 3 2 rfl⟩

/-- Claim C10: `MemoryStorage::save_announcement` returns as id exactly the drawn
random u32 (`rid`), independently of the store contents — not a sequential id —
and the insertion maps `rid` to the fresh unsigned event, silently replacing any
previously stored event under `rid`, including an attested one. -/
theorem claim_C10 (st : MemoryStorage) (rid : Nat) (ann : OracleAnnouncement)
    (idxs : List Nat) :
    (MemoryStorage.save_announcement rid ann idxs st).1 = rid ∧
    MemoryStorage.get_event rid (MemoryStorage.save_announcement rid ann idxs st).2 =
      some { id := some rid, announcement := ann, indexes := idxs, signatures := [],
             announcement_event_id := none, attestation_event_id := none } ∧
    (∀ old, MemoryStorage.get_event rid st = some old → old.signatures ≠ [] →
      MemoryStorage.get_event rid
          (MemoryStorage.save_announcement rid ann idxs st).2 ≠ some old) := by
  refine ⟨rfl, ?_, ?_⟩
  · simp [MemoryStorage.save_announcement, MemoryStorage.get_event,
      mapGet_mapInsert_self]
  · intro old hold hsig hnew
    rw [MemoryStorage.save_announcement, MemoryStorage.get_event,
      mapGet_mapInsert_self] at hnew
    have := Option.some.inj hnew
    apply hsig
    rw [← this]

/-- Claim C10, witnessed on a store already holding an attested event under the
drawn id: the attested event is silently replaced. -/
theorem claim_C10_witness :
    (MemoryStorage.save_announcement 4 sampleAnn [2] signedStore).1 = 4 ∧
    MemoryStorage.get_event 4
        (MemoryStorage.save_announcement 4 sampleAnn [2] signedStore).2 =
      some { id := some 4, announcement := sampleAnn, indexes := [2],
             signatures := [], announcement_event_id := none,
             attestation_event_id := none } ∧
    MemoryStorage.get_event 4
        (MemoryStorage.save_announcement 4 sampleAnn [2] signedStore).2 ≠
      some signedEvent :=
  ⟨(claim_C10 signedStore 4 sampleAnn [2]).1,
   (claim_C10 signedStore 4 sampleAnn [2]).2.1,
   (claim_C10 signedStore 4 sampleAnn [2]).2.2 signedEvent rfl (by decide)⟩

/-- Claim C4: `sign_enum_event` fails in the source's order — `NotFound` when no
stored event has the id; `EventAlreadySigned` when the stored event has any
signature; `Internal` when the nonce-index list does not have length 1 or the
descriptor is not an enum; `InvalidOutcome` when the outcome is not announced —
and in each failure case the returned store state is unchanged. -/
theorem claim_C4 {n : Nat} (O : OracleCtx n) (id : Nat) (outcome : String)
    (st : MemoryStorage) :
    (MemoryStorage.get_event id st = none →
      Oracle.sign_enum_event O id outcome st =
        some (Except.error Error.NotFound, st)) ∧
    (∀ data, MemoryStorage.get_event id st = some data → data.signatures ≠ [] →
      Oracle.sign_enum_event O id outcome st =
        some (Except.error Error.EventAlreadySigned, st)) ∧
    (∀ data, MemoryStorage.get_event id st = some data → data.signatures = [] →
      (data.indexes.length ≠ 1 ∨
        data.announcement.oracle_event.event_descriptor.isEnumEvent = false) →
      Oracle.sign_enum_event O id outcome st =
        some (Except.error Error.Internal, st)) ∧
    (∀ data desc, MemoryStorage.get_event id st = some data →
      data.signatures = [] → data.indexes.length = 1 →
      data.announcement.oracle_event.event_descriptor =
        EventDescriptor.EnumEvent desc →
      outcome ∉ desc.outcomes →
      Oracle.sign_enum_event O id outcome st =
        some (Except.error Error.InvalidOutcome, st)) := by
  refine ⟨?_, ?_, ?_, ?_⟩
  · intro h
    simp [Oracle.sign_enum_event, h]
  · intro data h hs
    simp [Oracle.sign_enum_event, h, hs]
  · intro data h hs hbad
    rcases hbad with hlen | hdesc
    · simp [Oracle.sign_enum_event, h, hs, hlen]
    · cases hd : data.announcement.oracle_event.event_descriptor with
      | EnumEvent d =>
        rw [hd] at hdesc
        simp [EventDescriptor.isEnumEvent] at hdesc
      | DigitDecompositionEvent =>
        simp [Oracle.sign_enum_event, h, hs, hd]
  · intro data desc h hs hlen hd hout
    simp [Oracle.sign_enum_event, h, hs, hlen, hd, hout]

/-- Claim C4, witnessed: each of the four failure cases on a concrete store. -/
theorem claim_C4_witness :
    (MemoryStorage.get_event 9 emptyStore = none ∧
      Oracle.sign_enum_event toyCtx 9 ("a") emptyStore =
        some (Except.error Error.NotFound, emptyStore)) ∧
    (MemoryStorage.get_event 4 signedStore = some signedEvent ∧
      Oracle.sign_enum_event toyCtx 4 ("a") signedStore =
        some (Except.error Error.EventAlreadySigned, signedStore)) ∧
    (MemoryStorage.get_event 3 twoIdxStore = some twoIdxEvent ∧
      Oracle.sign_enum_event toyCtx 3 ("a") twoIdxStore =
        some (Except.error Error.Internal, twoIdxStore)) ∧
    (MemoryStorage.get_event 5 enumStore = some enumEvent1 ∧
      Oracle.sign_enum_event toyCtx 5 ("c") enumStore =
        some (Except.error Error.InvalidOutcome, enumStore)) :=
  ⟨⟨rfl, (claim_C4 toyCtx 9 ("a") emptyStore).1 rfl⟩,
   ⟨rfl, (claim_C4 toyCtx 4 ("a") signedStore).2.1 signedEvent rfl (by decide)⟩,
   ⟨rfl, (claim_C4 toyCtx 3 ("a") twoIdxStore).2.2.1 twoIdxEvent rfl rfl
      (Or.inl (by decide))⟩,
   ⟨rfl, (claim_C4 toyCtx 5 ("c") enumStore).2.2.2 enumEvent1
      { outcomes := ["a", "b"] } rfl rfl rfl rfl (by decide)⟩⟩

/-- Claim C5 (amended): `MemoryStorage` and `IndexedDb` `save_signatures` fail
with `NotFound` for an unknown id and `EventAlreadySigned` for an already-signed
event, but perform no signature-count check — with a count mismatch they succeed;
`PostgresStorage::save_signatures` returns `StorageFailure` (not `NotFound` /
`Internal`) both for an unknown id and for a count mismatch, and performs no
already-signed check at all — with matching counts it succeeds even when nonce
rows already carry signatures. -/
theorem claim_C5_amended :
    (∀ (id : Nat) sigs st, MemoryStorage.get_event id st = none →
      MemoryStorage.save_signatures id sigs st =
        (Except.error Error.NotFound, st)) ∧
    (∀ (id : Nat) sigs st ev, MemoryStorage.get_event id st = some ev →
      ev.signatures ≠ [] →
      MemoryStorage.save_signatures id sigs st =
        (Except.error Error.EventAlreadySigned, st)) ∧
    (∀ (id : Nat) sigs st ev, MemoryStorage.get_event id st = some ev →
      ev.signatures = [] →
      (MemoryStorage.save_signatures id sigs st).1 =
        Except.ok { ev with signatures := sigs }) ∧
    (∀ (eid : String) sigs st, IndexedDb.get_event eid st = none →
      IndexedDb.save_signatures eid sigs st = (Except.error Error.NotFound, st)) ∧
    (∀ (eid : String) sigs st ev, IndexedDb.get_event eid st = some ev →
      ev.signatures ≠ [] →
      IndexedDb.save_signatures eid sigs st =
        (Except.error Error.EventAlreadySigned, st)) ∧
    (∀ (eid : String) sigs st ev, IndexedDb.get_event eid st = some ev →
      ev.signatures = [] →
      (IndexedDb.save_signatures eid sigs st).1 =
        Except.ok { ev with signatures := sigs }) ∧
    (∀ opk (id : Nat) sigs st,
      st.events.find? (fun e => decide (e.id = id)) = none →
      PostgresStorage.save_signatures opk id sigs st =
        (Except.error Error.StorageFailure, st)) ∧
    (∀ opk (id : Nat) sigs st ev,
      st.events.find? (fun e => decide (e.id = id)) = some ev →
      (st.event_nonces.filter (fun r => decide (r.event_id = id))).length ≠
        sigs.length →
      PostgresStorage.save_signatures opk id sigs st =
        (Except.error Error.StorageFailure, st)) ∧
    (∀ opk (id : Nat) sigs st ev,
      st.events.find? (fun e => decide (e.id = id)) = some ev →
      (st.event_nonces.filter (fun r => decide (r.event_id = id))).length =
        sigs.length →
      ∃ d, (PostgresStorage.save_signatures opk id sigs st).1 = Except.ok d) := by
  refine ⟨?_, ?_, ?_, ?_, ?_, ?_, ?_, ?_, ?_⟩
  · intro id sigs st h
    rw [MemoryStorage.get_event] at h
    simp [MemoryStorage.save_signatures, h]
  · intro id sigs st ev h hne
    rw [MemoryStorage.get_event] at h
    simp [MemoryStorage.save_signatures, h, hne]
  · intro id sigs st ev h he
    rw [MemoryStorage.get_event] at h
    simp [MemoryStorage.save_signatures, h, he]
  · intro eid sigs st h
    simp [IndexedDb.save_signatures, h]
  · intro eid sigs st ev h hne
    simp [IndexedDb.save_signatures, h, hne]
  · intro eid sigs st ev h he
    simp [IndexedDb.save_signatures, h, he]
  · intro opk id sigs st h
    simp [PostgresStorage.save_signatures, h]
  · intro opk id sigs st ev h hne
    simp [PostgresStorage.save_signatures, h, hne]
  · intro opk id sigs st ev h heq
    simp [PostgresStorage.save_signatures, h, heq]

/-- Claim C5 counterexample: `MemoryStorage::save_signatures` accepts one
signature for an event with two stored nonce indexes — it succeeds where the
claim demands an `Internal` failure. -/
theorem claim_C5_counterexample :
    ([("a", [1])] : List (String × List Nat)).length ≠ twoIdxEvent.indexes.length ∧
    (MemoryStorage.save_signatures 3 [("a", [1])] twoIdxStore).1 =
      Except.ok { twoIdxEvent with signatures := [("a", [1])] } := by
  constructor
  · decide
  · rfl

/-- Claim C5 amended, witnessed on concrete stores for all nine cases. -/
theorem claim_C5_amended_witness :
    (MemoryStorage.get_event 9 emptyStore = none ∧
      MemoryStorage.save_signatures 9 [] emptyStore =
        (Except.error Error.NotFound, emptyStore)) ∧
    (MemoryStorage.get_event 4 signedStore = some signedEvent ∧
      MemoryStorage.save_signatures 4 [] signedStore =
        (Except.error Error.EventAlreadySigned, signedStore)) ∧
    (MemoryStorage.get_event 5 enumStore = some enumEvent1 ∧
      (MemoryStorage.save_signatures 5 [("a", [1]), ("b", [2])] enumStore).1 =
        Except.ok { enumEvent1 with signatures := [("a", [1]), ("b", [2])] }) ∧
    (IndexedDb.get_event ("nope") idbEmpty = none ∧
      IndexedDb.save_signatures ("nope") [] idbEmpty =
        (Except.error Error.NotFound, idbEmpty)) ∧
    (IndexedDb.get_event ("test") idbSigned = some wasmSigned ∧
      IndexedDb.save_signatures ("test") [] idbSigned =
        (Except.error Error.EventAlreadySigned, idbSigned)) ∧
    (IndexedDb.get_event ("test") idbUnsigned = some wasmEvent ∧
      (IndexedDb.save_signatures ("test") [("a", [1]), ("b", [2])] idbUnsigned).1 =
        Except.ok { wasmEvent with signatures := [("a", [1]), ("b", [2])] }) ∧
    (pgEmpty.events.find? (fun e => decide (e.id = 1)) = none ∧
      PostgresStorage.save_signatures [] 1 [] pgEmpty =
        (Except.error Error.StorageFailure, pgEmpty)) ∧
    (pgStore.events.find? (fun e => decide (e.id = 1)) = some pgEvent ∧
      PostgresStorage.save_signatures [] 1 [("a", [9])] pgStore =
        (Except.error Error.StorageFailure, pgStore)) ∧
    (pgStore.events.find? (fun e => decide (e.id = 1)) = some pgEvent ∧
      ∃ d, (PostgresStorage.save_signatures [] 1 [("a", [9]), ("b", [8])]
        pgStore).1 = Except.ok d) :=
  ⟨⟨rfl, claim_C5_amended.1 9 [] emptyStore rfl⟩,
   ⟨rfl, claim_C5_amended.2.1 4 [] signedStore signedEvent rfl (by decide)⟩,
   ⟨rfl, claim_C5_amended.2.2.1 5 [("a", [1]), ("b", [2])] enumStore enumEvent1
      rfl rfl⟩,
   ⟨rfl, claim_C5_amended.2.2.2.1 ("nope") [] idbEmpty rfl⟩,
   ⟨rfl, claim_C5_amended.2.2.2.2.1 ("test") [] idbSigned wasmSigned rfl
      (by decide)⟩,
   ⟨rfl, claim_C5_amended.2.2.2.2.2.1 ("test") [("a", [1]), ("b", [2])] idbUnsigned
      wasmEvent rfl rfl⟩,
   ⟨rfl, claim_C5_amended.2.2.2.2.2.2.1 [] 1 [] pgEmpty rfl⟩,
   ⟨rfl, claim_C5_amended.2.2.2.2.2.2.2.1 [] 1 [("a", [9])] pgStore pgEvent rfl
      (by decide)⟩,
   ⟨rfl, claim_C5_amended.2.2.2.2.2.2.2.2 [] 1 [("a", [9]), ("b", [8])] pgStore
      pgEvent rfl (by decide)⟩⟩

/-- Claim C6: `create_enum_event` runs the event validation before signing and
before touching the event map, and — with the validation modelled from the spec —
rejects (with `Error.Internal`, as the source maps validation failures) every
input whose event id is empty, whose outcome list is empty, or whose outcome list
has duplicates; only the nonce counter has advanced, the event map is unchanged.
The hypothesis states that the nonce derivation itself does not panic. -/
theorem claim_C6 {n : Nat} (O : OracleCtx n) (rid : Nat) (event_id : String)
    (outcomes : List String) (mat : Nat) (st : MemoryStorage)
    (hderive :
      (Oracle.get_nonce_key O.ckd (st.current_index % 2 ^ 32)).isSome = true)
    (hbad : event_id = "" ∨ outcomes = [] ∨ ¬ outcomes.Nodup) :
    Oracle.create_enum_event O rid event_id outcomes mat st =
      some (Except.error Error.Internal,
        { st with current_index := nonceCounterAfter 1 st.current_index }) := by
  obtain ⟨k, hk⟩ := Option.isSome_iff_exists.mp hderive
  have hval : OracleEvent.validate
      { oracle_nonces := [O.curve.xbytes k], event_id := event_id,
        event_maturity_epoch := mat,
        event_descriptor := EventDescriptor.EnumEvent { outcomes := outcomes } } =
      false := by
    rcases hbad with hb | hb | hb <;> simp [OracleEvent.validate, hb]
  have e32 : (2 : Nat) ^ 32 = 4294967296 := by norm_num
  have hk' := hk
  rw [e32] at hk'
  have hidx : nonceIndexesOf 1 st.current_index = [st.current_index % 2 ^ 32] := by
    simp [nonceIndexesOf, List.range_succ]
  have hmapM :
      List.mapM (fun i => (Oracle.get_nonce_key O.ckd i).map O.curve.xbytes)
        [st.current_index % 2 ^ 32] = some [O.curve.xbytes k] := by
    simp [List.mapM.loop, hk']
  simp only [Oracle.create_enum_event, MemoryStorage.get_next_nonce_indexes, hidx,
    hmapM, hval]
  simp

theorem save_signatures_after_insert (id : Nat) (sigs : List (String × List Nat))
    (db : List (Nat × OracleEventData)) (ci : Nat) (ev : OracleEventData)
    (hev : ev.signatures = []) :
    MemoryStorage.save_signatures id sigs
      { current_index := ci, data := mapInsert db id ev } =
      (Except.ok { ev with signatures := sigs },
        { current_index := ci,
          data := mapInsert (mapInsert db id ev) id
            { ev with signatures := sigs } }) := by
  simp only [MemoryStorage.save_signatures, mapGet_mapInsert_self, hev,
    eq_self_iff_true, if_true]

theorem create_enum_event_ok_inv {n : Nat} (O : OracleCtx n) (rid : Nat)
    (eid : String) (outs : List String) (mat : Nat) (st : MemoryStorage)
    (idv : Nat) (ann : OracleAnnouncement) (st1 : MemoryStorage)
    (h : Oracle.create_enum_event O rid eid outs mat st =
      some (Except.ok (idv, ann), st1)) :
    ∃ k, Oracle.get_nonce_key O.ckd (st.current_index % 2 ^ 32) = some k ∧
      idv = rid ∧
      ann = { announcement_signature := O.annSign
                { oracle_nonces := [O.curve.xbytes k], event_id := eid,
                  event_maturity_epoch := mat,
                  event_descriptor :=
                    EventDescriptor.EnumEvent { outcomes := outs } },
              oracle_public_key := O.curve.xbytes O.signing_key,
              oracle_event :=
                { oracle_nonces := [O.curve.xbytes k], event_id := eid,
                  event_maturity_epoch := mat,
                  event_descriptor :=
                    EventDescriptor.EnumEvent { outcomes := outs } } } ∧
      st1 = { current_index := nonceCounterAfter 1 st.current_index,
              data := mapInsert st.data rid
                { id := some rid, announcement := ann,
                  indexes := [st.current_index % 2 ^ 32], signatures := [],
                  announcement_event_id := none,
                  attestation_event_id := none } } := by
  have hidx : nonceIndexesOf 1 st.current_index = [st.current_index % 2 ^ 32] := by
    simp [nonceIndexesOf, List.range_succ]
  simp only [Oracle.create_enum_event, MemoryStorage.get_next_nonce_indexes,
    hidx] at h
  have e32 : (2 : Nat) ^ 32 = 4294967296 := by norm_num
  cases hk : Oracle.get_nonce_key O.ckd (st.current_index % 2 ^ 32) with
  | none =>
    have hk' := hk
    rw [e32] at hk'
    have hmapM :
        List.mapM (fun i => (Oracle.get_nonce_key O.ckd i).map O.curve.xbytes)
          [st.current_index % 2 ^ 32] = none := by
      simp [List.mapM.loop, hk']
    rw [hmapM] at h
    exact absurd h (by simp)
  | some k =>
    have hk' := hk
    rw [e32] at hk'
    have hmapM :
        List.mapM (fun i => (Oracle.get_nonce_key O.ckd i).map O.curve.xbytes)
          [st.current_index % 2 ^ 32] = some [O.curve.xbytes k] := by
      simp [List.mapM.loop, hk']
    rw [hmapM] at h
    simp only [MemoryStorage.save_announcement] at h
    split_ifs at h with hv hav
    · simp only [Option.some.injEq, Prod.mk.injEq, Except.ok.injEq] at h
      obtain ⟨⟨h1, h2⟩, h3⟩ := h
      refine ⟨k, rfl, h1.symm, h2.symm, ?_⟩
      rw [← h3, ← h2]
    · exact absurd h (by simp)
    · exact absurd h (by simp)

/-- Claim C3: for every event created by `create_enum_event` and then
successfully signed by `sign_enum_event`, the first 32 bytes of the attestation's
signature equal the serialized nonce public key committed in the announcement
(the nonce secret is re-derived from the same stored index). -/
theorem claim_C3 {n : Nat} (O : OracleCtx n) (rid : Nat) (eid : String)
    (outs : List String) (mat : Nat) (st : MemoryStorage) (outcome : String)
    (idv : Nat) (ann : OracleAnnouncement) (st1 : MemoryStorage)
    (att : OracleAttestation) (st2 : MemoryStorage)
    (hcreate : Oracle.create_enum_event O rid eid outs mat st =
      some (Except.ok (idv, ann), st1))
    (hsign : Oracle.sign_enum_event O idv outcome st1 =
      some (Except.ok att, st2)) :
    (att.signatures.map (fun s => s.take 32)).head? =
      ann.oracle_event.oracle_nonces.head? := by
  obtain ⟨k, hk, hid, hann, hst1⟩ :=
    create_enum_event_ok_inv O rid eid outs mat st idv ann st1 hcreate
  subst hid
  subst hann
  subst hst1
  have hget : ∀ X, MemoryStorage.get_event idv
      { current_index := nonceCounterAfter 1 st.current_index,
        data := mapInsert st.data idv X } = some X := by
    intro X
    rw [MemoryStorage.get_event]
    exact mapGet_mapInsert_self _ _ _
  simp only [Oracle.sign_enum_event, hget, hk, List.head?_cons, List.length_cons,
    List.length_nil, Nat.zero_add, eq_self_iff_true, if_true] at hsign
  split_ifs at hsign with hmem <;> try (apply absurd hsign; simp; done)
  cases hsg : schnorr_sign_with_nonce O.curve O.hash
      (natToBytesBE 32 (O.hash (strBytes outcome))) O.signing_key k with
  | none =>
    simp only [hsg] at hsign
    exact absurd hsign (by simp)
  | some sig =>
    simp only [hsg] at hsign
    split_ifs at hsign with hver
    · simp only [save_signatures_after_insert] at hsign
      simp only [Option.some.injEq, Prod.mk.injEq, Except.ok.injEq] at hsign
      obtain ⟨hatt, hst2⟩ := hsign
      subst hatt
      obtain ⟨hsig', he⟩ := schnorr_sign_with_nonce_some O.curve O.hash _
        O.signing_key k sig hsg
      subst hsig'
      simp only [List.map_cons, List.map_nil, List.head?_cons,
        Option.some.injEq]
      rw [List.take_left' (get_schnorr_key_fst_length O.curve k),
        get_schnorr_key_fst]
    · exact absurd hsign (by simp)

/-- Claim C3, witnessed on a full concrete create-then-sign run in the executable
model. -/
theorem claim_C3_witness :
    Oracle.create_enum_event toyCtx 7 ("test") ["a", "b"] 100 emptyStore =
      some (Except.ok (7, c3ann), c3st1) ∧
    Oracle.sign_enum_event toyCtx 7 ("a") c3st1 = some (Except.ok c3att, c3st2) ∧
    (c3att.signatures.map (fun s => s.take 32)).head? =
      c3ann.oracle_event.oracle_nonces.head? := by
  have h1 : Oracle.create_enum_event toyCtx 7 ("test") ["a", "b"] 100 emptyStore =
      some (Except.ok (7, c3ann), c3st1) := by rfl
  have h2 : Oracle.sign_enum_event toyCtx 7 ("a") c3st1 =
      some (Except.ok c3att, c3st2) := by rfl
  exact ⟨h1, h2, claim_C3 toyCtx 7 ("test") ["a", "b"] 100 emptyStore ("a") 7 c3ann
    c3st1 c3att c3st2 h1 h2⟩

/-- Claim C6, witnessed: an empty event id is rejected before anything is stored. -/
theorem claim_C6_witness :
    (Oracle.get_nonce_key toyCtx.ckd (emptyStore.current_index % 2 ^ 32)).isSome =
      true ∧
    Oracle.create_enum_event toyCtx 1 ("") ["a"] 0 emptyStore =
      some (Except.error Error.Internal,
        { emptyStore with
            current_index := nonceCounterAfter 1 emptyStore.current_index }) :=
  ⟨rfl, claim_C6 toyCtx 1 ("") ["a"] 0 emptyStore rfl (Or.inl rfl)⟩

end Kormir




